import Mathlib

/-!
# GridDFS NameNode — verification of the metadata-coordination core

Shallow embedding of `src/namenode/app.py` (the NameNode of the GridDFS
distributed file store).  The in-process dictionaries `files`, `directories`,
`datanodes` and `datanode_status` become association lists with Python-dict
semantics (update in place, insert at the end, first-match lookup — keys stay
unique by construction).  Python strings become `String`/`List Char`;
`datetime.now()` and `time.time()` values become integers tagged with their
Python runtime type, because the code mixes the two and Python raises
`TypeError` when a `datetime` is compared with a `float`.  Handlers that can
raise `HTTPException` return `Except`; `register_file`, which mutates the
directory map *before* its placement check can raise, returns the result
together with the post-state (Python does not roll back on an exception).
-/

deriving instance DecidableEq for Except

namespace GridDFS

/-- Python-dict lookup: first (and only) binding for a key. -/
def alookup {α β : Type} [DecidableEq α] : List (α × β) → α → Option β
  | [], _ => none
  | (k, v) :: rest, k' => if k = k' then some v else alookup rest k'

/-- Python-dict assignment `d[k] = v`: replace in place if the key is
present (keys are unique by construction), else append at the end. -/
def ains {α β : Type} [DecidableEq α] : List (α × β) → α → β → List (α × β)
  | [], k, v => [(k, v)]
  | (a, b) :: t, k, v => if a = k then (k, v) :: t else (a, b) :: ains t k v

/-- Python `del d[k]`: drop the (unique) binding of `k`. -/
def aerase {α β : Type} [DecidableEq α] : List (α × β) → α → List (α × β)
  | [], _ => []
  | (a, b) :: t, k => if a = k then t else (a, b) :: aerase t k

/-- A Python timestamp: either a `datetime.datetime` (from `datetime.now()`)
or a `float` (from `time.time()`), both carrying an integral time value.
The tag matters because comparing a `datetime` with a `float` raises
`TypeError` in Python. -/
inductive PyTime : Type
  | dt (t : Int)
  | fl (t : Int)
deriving DecidableEq, Repr

/-- Whether a `PyTime` is a `datetime` value. -/
def PyTime.isDt : PyTime → Bool
  | .dt _ => true
  | .fl _ => false

/-- The one Python runtime error the embedding needs. -/
inductive PyError : Type
  | typeError
deriving DecidableEq, Repr

/-- Python `v > x` where `x` is a `float`: defined for a `float` `v`,
raises `TypeError` for a `datetime` `v`. -/
def pyGtFloat : PyTime → Int → Except PyError Bool
  | .fl t, x => .ok (decide (t > x))
  | .dt _, _ => .error .typeError

/-- Python `now - v > timeout` where `now` is a `datetime` and `timeout` a
`timedelta`: defined for a `datetime` `v`, raises for a `float` `v`. -/
def pyDtSubGt : Int → PyTime → Int → Except PyError Bool
  | now, .dt t, tmo => .ok (decide (now - t > tmo))
  | _, .fl _, _ => .error .typeError

/-! ## Path normalization (inlined in each handler in `app.py`) -/

/-- `f"/{p}" if not p.startswith("/") else p` — force a leading slash
(on the character list; `"".startswith("/")` is false, so `""` becomes `"/"`). -/
def addSlash : List Char → List Char
  | [] => ['/']
  | c :: rest => if c = '/' then c :: rest else '/' :: c :: rest

/-- Python `s.replace("//", "/")`: one left-to-right non-overlapping pass,
scanning resumes after each replacement. -/
def collapse : List Char → List Char
  | [] => []
  | [c] => [c]
  | c :: d :: rest =>
    if c = '/' ∧ d = '/' then '/' :: collapse rest
    else c :: collapse (d :: rest)

/-- Python `s.rstrip("/")`: drop trailing slashes. -/
def rstripSlash (l : List Char) : List Char :=
  (l.reverse.dropWhile (· = '/')).reverse

/-- The normalization used by `register_file` (lines 281–282), `rm`
(360–361), `mkdir` (420–421) and `rmdir` (440–441): leading slash plus one
`replace("//", "/")` pass; trailing slashes are kept. -/
def normalizeFile (p : String) : String :=
  String.mk (collapse (addSlash p.data))

/-- The normalization used by `get_file` (lines 336–337) and
`check_file_health` (518–519): the same, followed by `rstrip("/")`. -/
def normalizeLookup (p : String) : String :=
  String.mk (rstripSlash (collapse (addSlash p.data)))

/-- `os.path.dirname`: the part of `p` up to and including the last `/`
(empty if there is no `/`), then `rstrip("/")` unless that head is empty or
consists only of slashes. -/
def dirname (p : String) : String :=
  let head := ((p.data.reverse.dropWhile (· ≠ '/')).reverse)
  if head ≠ [] ∧ ¬ head.all (· = '/') then String.mk (rstripSlash head)
  else String.mk head

/-! ## The NameNode's in-memory state -/

/-- One record of the `datanodes` dict (line 179). -/
structure DataNodeInfo : Type where
  node_id : String
  storage_capacity : Int
  registered_at : Int
deriving DecidableEq, Repr

/-- One record of the `datanode_status` dict (line 195). -/
structure DataNodeStatus : Type where
  last_heartbeat : PyTime
  status : String
  total_blocks : Int
  storage_capacity : Int
deriving DecidableEq, Repr

/-- `BlockInfo` (pydantic model, line 93). -/
structure BlockInfo : Type where
  index : Int
  block_id : String
  datanode : String
deriving DecidableEq, Repr

/-- `FileRegistration` (pydantic model, line 99). -/
structure FileRegistration : Type where
  filename : String
  size : Int
  block_size : Int
  blocks : List BlockInfo
deriving DecidableEq, Repr

/-- `HeartbeatData` (pydantic model, line 111), after the handler's
`or 0` defaulting. -/
structure HeartbeatData : Type where
  datanode_url : String
  node_id : String := "unknown"
  total_blocks : Int := 0
  storage_capacity : Int := 0
deriving DecidableEq, Repr

/-- `DataNodeRegistration` (pydantic model, line 87). -/
structure DataNodeRegistration : Type where
  datanode_url : String
  node_id : String := "unknown"
  storage_capacity : Int := 0
deriving DecidableEq, Repr

/-- One value of the `directories` dict (line 294 / 427): the `"type"`
field is the constant `"directory"` and is omitted. -/
structure DirEntry : Type where
  owner : String
  created_at : Int
deriving DecidableEq, Repr

/-- One value of the `files` dict (line 315). -/
structure FileEntry : Type where
  size : Int
  block_size : Int
  blocks : List BlockInfo
  created_at : Int
  owner : String
deriving DecidableEq, Repr

/-- The NameNode's global mutable maps (lines 39–43).  `users` and the
placement cache are not touched by any verified operation and are omitted;
handlers are modelled after the auth gate, taking the resolved `username`. -/
structure NNState : Type where
  files : List ((String × String) × FileEntry)
  directories : List ((String × String) × DirEntry)
  datanodes : List (String × DataNodeInfo)
  datanode_status : List (String × DataNodeStatus)
deriving DecidableEq, Repr

/-- The empty initial state. -/
def initState : NNState := ⟨[], [], [], []⟩

/-- `HEARTBEAT_TIMEOUT` (line 16, default `90`). -/
def HEARTBEAT_TIMEOUT : Int := 90

/-! ## Membership & liveness -/

/-- The list comprehension `[dn for dn in datanodes.keys() if
datanode_status.get(dn, {}).get("status") == "active"]`, used by
`register_file` (lines 304–305) and, per item, by the `/datanodes`
endpoint (lines 250–253). -/
def activeByStatus (st : NNState) : List String :=
  (st.datanodes.map (·.1)).filter
    (fun dn => match alookup st.datanode_status dn with
      | some s => s.status = "active"
      | none => false)

/-- `get_active_datanodes` (lines 150–154): filters `datanode_status` by
`last_heartbeat > time.time() - HEARTBEAT_TIMEOUT`.  Every stored
`last_heartbeat` is a `datetime`, and `time.time()` is a `float`, so the
comparison raises `TypeError` on the first entry; the comprehension yields
`[]` only when the dict is empty.  `now` is the value of `time.time()`. -/
def get_active_datanodes (st : NNState) (now : Int) :
    Except PyError (List String) :=
  go st.datanode_status
where
  go : List (String × DataNodeStatus) → Except PyError (List String)
    | [] => .ok []
    | (dn, s) :: rest =>
      match pyGtFloat s.last_heartbeat (now - HEARTBEAT_TIMEOUT) with
      | .error e => .error e
      | .ok keep =>
        match go rest with
        | .error e => .error e
        | .ok tl => .ok (if keep then dn :: tl else tl)

/-- Errors of `get_distribution_plan`. -/
inductive PlanError : Type
  | badRequest
  | noActiveNodes
  | internalTypeError
deriving DecidableEq, Repr

/-- `get_distribution_plan` (lines 584–595): reject `num_blocks <= 0`,
503 when no active nodes, else round-robin
`[active_nodes[i % len(active_nodes)] for i in range(num_blocks)]`.
An uncaught `TypeError` from `get_active_datanodes` surfaces as a 500. -/
def get_distribution_plan (st : NNState) (now : Int) (num_blocks : Int) :
    Except PlanError (List String) :=
  if num_blocks ≤ 0 then .error .badRequest
  else
    match get_active_datanodes st now with
    | .error _ => .error .internalTypeError
    | .ok [] => .error .noActiveNodes
    | .ok (a :: as) =>
      .ok ((List.range num_blocks.toNat).map
        (fun i => (a :: as).getD (i % (a :: as).length) a))

/-- One record's update in the sweep `check_datanode_status` (lines 71–76):
if `current_time - last_heartbeat > timedelta(seconds=HEARTBEAT_TIMEOUT)`
and the status is `"active"`, set it to `"inactive"`.  `now` is a
`datetime`, so the subtraction is well-typed exactly when the stored
heartbeat is a `datetime`. -/
def sweepRecord (now : Int) (s : DataNodeStatus) :
    Except PyError DataNodeStatus :=
  match pyDtSubGt now s.last_heartbeat HEARTBEAT_TIMEOUT with
  | .error e => .error e
  | .ok timedOut =>
    if timedOut ∧ s.status = "active" then .ok { s with status := "inactive" }
    else .ok s

/-- The sweep applied to every tracked record in order. -/
def sweepList (now : Int) :
    List (String × DataNodeStatus) →
      Except PyError (List (String × DataNodeStatus))
  | [] => .ok []
  | (dn, s) :: rest =>
    match sweepRecord now s with
    | .error e => .error e
    | .ok s' =>
      match sweepList now rest with
      | .error e => .error e
      | .ok rest' => .ok ((dn, s') :: rest')

/-- One iteration of the `check_datanode_status` loop body (lines 64–79),
`now` being `datetime.now()`. -/
def check_datanode_status (st : NNState) (now : Int) :
    Except PyError NNState :=
  match sweepList now st.datanode_status with
  | .error e => .error e
  | .ok ds => .ok { st with datanode_status := ds }

/-- `register_datanode` (lines 172–207): upsert the `datanodes` record
(a re-registration keeps `registered_at`), then mark the node active with
`last_heartbeat = datetime.now()` and `total_blocks = 0`. -/
def register_datanode (st : NNState) (now : Int) (r : DataNodeRegistration) :
    NNState :=
  let dns :=
    match alookup st.datanodes r.datanode_url with
    | some old =>
      ains st.datanodes r.datanode_url
        { old with node_id := r.node_id,
                   storage_capacity := r.storage_capacity }
    | none =>
      ains st.datanodes r.datanode_url
        { node_id := r.node_id, storage_capacity := r.storage_capacity,
          registered_at := now }
  { st with
    datanodes := dns,
    datanode_status := ains st.datanode_status r.datanode_url
      { last_heartbeat := .dt now, status := "active",
        total_blocks := 0, storage_capacity := r.storage_capacity } }

/-- `heartbeat` (lines 210–242): refresh the record and force
`status = "active"` when the url is tracked; otherwise auto-register the
node in both maps. -/
def heartbeat (st : NNState) (now : Int) (data : HeartbeatData) : NNState :=
  if (alookup st.datanode_status data.datanode_url).isSome then
    { st with
      datanode_status := ains st.datanode_status data.datanode_url
        { last_heartbeat := .dt now, status := "active",
          total_blocks := data.total_blocks,
          storage_capacity := data.storage_capacity } }
  else
    { st with
      datanodes := ains st.datanodes data.datanode_url
        { node_id := data.node_id,
          storage_capacity := data.storage_capacity, registered_at := now },
      datanode_status := ains st.datanode_status data.datanode_url
        { last_heartbeat := .dt now, status := "active",
          total_blocks := data.total_blocks,
          storage_capacity := data.storage_capacity } }

/-- The `/datanodes` endpoint body (lines 245–255): urls of registered
DataNodes whose current status is `"active"` — the spec's
`ActiveDataNodes()`. -/
def get_datanodes (st : NNState) : List String :=
  activeByStatus st

/-! ## Namespace operations -/

/-- The error taxonomy surfaced by the namespace handlers. -/
inductive NsError : Type
  | alreadyExists (path : String)
  | notFound (path : String)
  | notEmpty (path : String)
  | invalidPlacement (block_ids : List String)
deriving DecidableEq, Repr

/-- `register_file` (lines 278–330).  Returns the HTTP outcome (the
normalized filename on success) together with the post-state: the
auto-creation of the parent directory happens *before* the placement
check, so a rejected registration can still have created a directory.
Python's stable `sorted(..., key=lambda x: x["index"])` is modelled by a
sort by index (the order among equal indices is not relied on). -/
def register_file (st : NNState) (now : Int) (username : String)
    (reg : FileRegistration) : Except NsError String × NNState :=
  let nf := normalizeFile reg.filename
  let key := (username, nf)
  if (alookup st.files key).isSome then (.error (.alreadyExists nf), st)
  else
    let parent := dirname nf
    let st1 :=
      if parent ≠ "/" ∧ parent ≠ "" then
        if (alookup st.directories (username, parent)).isSome then st
        else
          { st with
            directories :=
              ains st.directories (username, parent) ⟨username, now⟩ }
      else st
    let invalid := (reg.blocks.filter
      (fun b => ¬ b.datanode ∈ activeByStatus st1)).map (·.block_id)
    if invalid ≠ [] then (.error (.invalidPlacement invalid), st1)
    else
      let entry : FileEntry :=
        { size := reg.size, block_size := reg.block_size,
          blocks :=
            List.insertionSort (fun a b => a.index ≤ b.index) reg.blocks,
          created_at := now, owner := username }
      (.ok nf, { st1 with files := ains st1.files key entry })

/-- `mkdir` (lines 417–434): reject when the normalized path is already a
file or a directory, else create the directory entry. -/
def mkdir (st : NNState) (now : Int) (username path : String) :
    Except NsError NNState :=
  let dp := normalizeFile path
  let key := (username, dp)
  if (alookup st.files key).isSome ∨ (alookup st.directories key).isSome then
    .error (.alreadyExists dp)
  else
    .ok { st with directories := ains st.directories key ⟨username, now⟩ }

/-- `rmdir` (lines 437–455): 404 when the normalized path is not a
directory; 400 when any entry of `files` or `directories` of the same
owner starts with `dir_path.rstrip("/") + "/"` and differs from the path;
else delete the entry. -/
def rmdir (st : NNState) (username path : String) : Except NsError NNState :=
  let dp := normalizeFile path
  let key := (username, dp)
  if (alookup st.directories key).isNone then .error (.notFound dp)
  else
    let pre := rstripSlash dp.data ++ ['/']
    let allKeys := st.files.map (·.1) ++ st.directories.map (·.1)
    if allKeys.any (fun kv =>
        kv.1 = username ∧ pre.isPrefixOf kv.2.data ∧ kv.2 ≠ dp) then
      .error (.notEmpty dp)
    else
      .ok { st with directories := aerase st.directories key }

/-- `rm` (lines 357–378): 404 when the normalized path is not a file,
else delete the entry, reporting how many blocks it had. -/
def rm (st : NNState) (username path : String) :
    Except NsError (NNState × Nat) :=
  let nf := normalizeFile path
  let key := (username, nf)
  match alookup st.files key with
  | none => .error (.notFound nf)
  | some fi => .ok ({ st with files := aerase st.files key }, fi.blocks.length)

/-- A namespace mutation, for stating invariants over arbitrary operation
sequences. -/
inductive NsOp : Type
  | mkdirO (u p : String)
  | rmdirO (u p : String)
  | regO (u : String) (reg : FileRegistration)
  | rmO (u p : String)
deriving Repr

/-- The state reached after one namespace operation, whether it succeeded
or raised (an `HTTPException` does not roll back prior mutations). -/
def execNsOp (st : NNState) (now : Int) : NsOp → NNState
  | .mkdirO u p => match mkdir st now u p with | .ok s => s | .error _ => st
  | .rmdirO u p => match rmdir st u p with | .ok s => s | .error _ => st
  | .regO u reg => (register_file st now u reg).2
  | .rmO u p => match rm st u p with | .ok r => r.1 | .error _ => st

/-! ## Integrity verification -/

/-- Errors of `check_file_health`. -/
inductive HealthError : Type
  | notFound (path : String)
  | zeroDivision
deriving DecidableEq, Repr

/-- The health report returned by `check_file_health` (lines 540–546);
`missing_blocks` keeps the failing descriptors in block-list order. -/
structure HealthReport : Type where
  filename : String
  total_blocks : Nat
  missing_blocks : List BlockInfo
  healthy : Bool
  integrity_score : ℚ
deriving DecidableEq, Repr

/-- `check_file_health` (lines 515–546).  The outcome of each remote probe
`verify_block_exists` is abstracted as an oracle `probe : BlockInfo → Bool`
(`false` for a probe that times out, errors or returns non-success).  A
file with zero blocks reaches `... / len(file_info["blocks"]) * 100` with a
zero denominator, raising `ZeroDivisionError` before any report is built. -/
def check_file_health (st : NNState) (probe : BlockInfo → Bool)
    (username filename : String) : Except HealthError HealthReport :=
  let nf := normalizeLookup filename
  match alookup st.files (username, nf) with
  | none => .error (.notFound nf)
  | some fi =>
    let missing := fi.blocks.filter (fun b => ¬ probe b)
    if fi.blocks.length = 0 then .error .zeroDivision
    else
      .ok { filename := nf,
            total_blocks := fi.blocks.length,
            missing_blocks := missing,
            healthy := missing.length = 0,
            integrity_score :=
              ((fi.blocks.length : ℚ) - missing.length)
                / fi.blocks.length * 100 }

/-! ## Support definitions for the statements -/

/-- No two consecutive slashes anywhere in the character list. -/
def noDbl : List Char → Bool
  | c :: d :: rest => (!(c == '/' && d == '/')) && noDbl (d :: rest)
  | _ => true

/-- No three consecutive slashes anywhere in the character list. -/
def noTrip : List Char → Bool
  | c :: d :: e :: rest =>
    (!(c == '/' && d == '/' && e == '/')) && noTrip (d :: e :: rest)
  | _ => true

/-- The record produced by one sweep step when the stored heartbeat is a
`datetime` (the only kind the code ever stores); used to describe
`sweepList`'s output. -/
def sweepOkRecord (now : Int) (s : DataNodeStatus) : DataNodeStatus :=
  match s.last_heartbeat with
  | .dt t =>
    if now - t > HEARTBEAT_TIMEOUT ∧ s.status = "active" then
      { s with status := "inactive" }
    else s
  | .fl _ => s

/-- Every tracked liveness record stores a `datetime` heartbeat — true of
every reachable state, since all three writers store `datetime.now()`. -/
def AllDt (st : NNState) : Bool :=
  st.datanode_status.all (fun p => p.2.last_heartbeat.isDt)

instance : IsTotal BlockInfo (fun a b => a.index ≤ b.index) :=
  ⟨fun a b => Int.le_total a.index b.index⟩

instance : IsTrans BlockInfo (fun a b => a.index ≤ b.index) :=
  ⟨fun _ _ _ h h' => le_trans h h'⟩

/-! ## Concrete scenario states -/

/-- A NameNode that has seen one DataNode `n1` register at time 100. -/
def stOneNode : NNState := register_datanode initState 100 ⟨"n1", "node1", 0⟩

/-- A NameNode with the directory `/docs` created by `alice`. -/
def stDocsDir : NNState :=
  match mkdir initState 0 "alice" "docs" with
  | .ok s => s
  | .error _ => initState

/-- Registering a file at the path of the existing directory `/docs`. -/
def regOverDir : Except NsError String × NNState :=
  register_file stDocsDir 1 "alice" ⟨"docs", 10, 4, []⟩

/-- Registering `/a/b/c.txt` into an empty namespace. -/
def regDeep : Except NsError String × NNState :=
  register_file initState 0 "alice" ⟨"a/b/c.txt", 1, 1, []⟩

/-- Registering a single block with index 5 on the active node `n1`. -/
def regIdx5 : Except NsError String × NNState :=
  register_file stOneNode 101 "alice" ⟨"f.bin", 8, 4, [⟨5, "b5", "n1"⟩]⟩

/-- Registering a file with an empty block list. -/
def regZeroBlocks : Except NsError String × NNState :=
  register_file initState 0 "alice" ⟨"f", 0, 4, []⟩

/-- A NameNode with `alice`'s file `/docs/a.txt` under the directory
`/docs`. -/
def stDocsFile : NNState :=
  (register_file stDocsDir 1 "alice" ⟨"docs/a.txt", 10, 4, []⟩).2

/-- A two-block file on the active node `n1`. -/
def regTwoBlocks : Except NsError String × NNState :=
  register_file stOneNode 101 "alice"
    ⟨"h", 8, 4, [⟨0, "b0", "n1"⟩, ⟨1, "b1", "n1"⟩]⟩

/-- The file entry stored for `/f.bin` by `regIdx5`. -/
def fiIdx5 : FileEntry :=
  { size := 8, block_size := 4, blocks := [⟨5, "b5", "n1"⟩],
    created_at := 101, owner := "alice" }

/-- The file entry stored for `/h` by `regTwoBlocks`. -/
def fiTwo : FileEntry :=
  { size := 8, block_size := 4,
    blocks := [⟨0, "b0", "n1"⟩, ⟨1, "b1", "n1"⟩],
    created_at := 101, owner := "alice" }

/-- A DataNode `n1` whose last heartbeat was at time 0. -/
def stStaleNode : NNState := register_datanode initState 0 ⟨"n1", "x", 0⟩

/-- `stStaleNode` after a sweep at time 100 (past the 90-unit timeout). -/
def stSwept : NNState :=
  match check_datanode_status stStaleNode 100 with
  | .ok s => s
  | .error _ => initState

/-! ## Dictionary lemmas -/

theorem alookup_ains_self {α β : Type} [DecidableEq α] :
    ∀ (l : List (α × β)) (k : α) (v : β), alookup (ains l k v) k = some v
  | [], k, v => by simp [ains, alookup]
  | (a, b) :: t, k, v => by
    by_cases hak : a = k
    · simp [ains, hak, alookup]
    · simp [ains, hak, alookup, alookup_ains_self t k v]

theorem alookup_ains_ne {α β : Type} [DecidableEq α] :
    ∀ (l : List (α × β)) (k : α) (v : β) (k' : α), k' ≠ k →
      alookup (ains l k v) k' = alookup l k'
  | [], k, v, k', h => by
    simp only [ains, alookup, if_neg (fun hk : k = k' => h hk.symm)]
  | (a, b) :: t, k, v, k', h => by
    by_cases hak : a = k
    · subst hak
      simp only [ains, if_pos rfl, alookup,
        if_neg (fun hk : a = k' => h hk.symm)]
    · simp only [ains, if_neg hak, alookup]
      by_cases hk' : a = k'
      · simp only [if_pos hk']
      · simp only [if_neg hk']
        exact alookup_ains_ne t k v k' h

theorem alookup_eq_none_of_not_mem_keys {α β : Type} [DecidableEq α] :
    ∀ (l : List (α × β)) (k : α), k ∉ l.map (·.1) → alookup l k = none
  | [], _, _ => rfl
  | (a, b) :: t, k, h => by
    simp only [List.map_cons, List.mem_cons] at h
    push_neg at h
    simp only [alookup, if_neg (fun hk : a = k => h.1 hk.symm)]
    exact alookup_eq_none_of_not_mem_keys t k h.2

theorem alookup_aerase_self {α β : Type} [DecidableEq α] :
    ∀ (l : List (α × β)) (k : α), (l.map (·.1)).Nodup →
      alookup (aerase l k) k = none
  | [], _, _ => rfl
  | (a, b) :: t, k, h => by
    simp only [List.map_cons, List.nodup_cons] at h
    by_cases hak : a = k
    · subst hak
      simp only [aerase, if_pos rfl]
      exact alookup_eq_none_of_not_mem_keys t a h.1
    · simp only [aerase, if_neg hak, alookup, if_neg hak]
      exact alookup_aerase_self t k h.2

theorem alookup_aerase_ne {α β : Type} [DecidableEq α] :
    ∀ (l : List (α × β)) (k k' : α) (v : β),
      alookup (aerase l k) k' = some v → k' ≠ k → alookup l k' = some v
  | [], k, k', v, h, _ => by simp [aerase, alookup] at h
  | (a, b) :: t, k, k', v, h, hne => by
    by_cases hak : a = k
    · subst hak
      simp only [aerase, if_pos rfl] at h
      simp only [alookup, if_neg (fun hk : a = k' => hne hk.symm)]
      exact h
    · simp only [aerase, if_neg hak] at h
      by_cases hk' : a = k'
      · simp only [alookup, if_pos hk'] at h ⊢
        exact h
      · simp only [alookup, if_neg hk'] at h ⊢
        exact alookup_aerase_ne t k k' v h hne

/-! ## Claim theorems -/

/-- C1 (code bug): after `mkdir /docs`, `register_file` accepts a file at
the very same `(owner, path)` — it checks only the `files` map (line 286),
not `directories` — so `("alice", "/docs")` ends up present in *both*
maps, violating the namespace-disjointness invariant the spec states and
`mkdir` itself enforces (line 424). -/
theorem register_file_over_directory_breaks_disjointness :
    mkdir initState 0 "alice" "docs" = .ok stDocsDir ∧
    regOverDir.1 = .ok "/docs" ∧
    (alookup regOverDir.2.files ("alice", "/docs")).isSome = true ∧
    (alookup regOverDir.2.directories ("alice", "/docs")).isSome = true := by
  decide

/-- C3 (code bug): with one registered (hence active) DataNode,
`get_distribution_plan` does not return the round-robin plan: inside
`get_active_datanodes` the stored `datetime` heartbeat is compared with
the `float` `time.time() - HEARTBEAT_TIMEOUT`, which raises `TypeError`,
so the endpoint fails whenever any DataNode is tracked.  Only the
empty-tracker branch behaves as claimed (`NoActiveNodes`). -/
theorem distribution_plan_raises_type_error :
    get_distribution_plan stOneNode 100 2 = .error .internalTypeError ∧
    get_distribution_plan initState 100 2 = .error .noActiveNodes := by
  decide

/-- C10: a registration with an empty block list is accepted, and
`check_file_health` on the resulting zero-block file reaches the division
`(total - missing) / total * 100` with `total = 0` — it raises instead of
returning a report, for every probe outcome. -/
theorem zero_block_registration_reaches_division_by_zero :
    regZeroBlocks.1 = .ok "/f" ∧
    ∀ probe : BlockInfo → Bool,
      check_file_health regZeroBlocks.2 probe "alice" "f"
        = .error .zeroDivision :=
  ⟨by decide, fun _ => rfl⟩

/-- C2 counterexample: registering `/a/b/c.txt` into an empty namespace
creates only the immediate parent `/a/b`; the missing ancestor `/a` is
*not* created, refuting "auto-creates every missing ancestor directory
entry". -/
theorem register_file_does_not_create_grandparent :
    regDeep.1 = .ok "/a/b/c.txt" ∧
    (alookup regDeep.2.directories ("alice", "/a/b")).isSome = true ∧
    alookup regDeep.2.directories ("alice", "/a") = none := by
  decide

/-- C7 counterexample: normalization is a *single* left-to-right
`replace("//", "/")` pass, so it is not idempotent: `"a///b"` normalizes
to `"/a//b"`, which normalizes again to `"/a/b"`. -/
theorem normalizeLookup_not_idempotent_on_triple_slash :
    normalizeLookup "a///b" = "/a//b" ∧
    normalizeLookup (normalizeLookup "a///b") = "/a/b" ∧
    normalizeLookup (normalizeLookup "a///b") ≠ normalizeLookup "a///b" := by
  decide

/-- C8 counterexample: a registered file may have `T = 0` blocks (the
empty block list is accepted), and for it `check_file_health` returns no
report at all — the score computation divides by zero — so the quantifier
"for every registered file with `T` blocks" fails at `T = 0`. -/
theorem health_score_formula_fails_for_zero_blocks :
    (register_file initState 0 "alice" ⟨"z", 0, 4, []⟩).1 = .ok "/z" ∧
    check_file_health (register_file initState 0 "alice" ⟨"z", 0, 4, []⟩).2
      (fun _ => true) "alice" "z" = .error .zeroDivision := by
  decide

/-- C9 counterexample: block indices are never validated, so a registered
file can store the single block index `5` — not the contiguous `0..n-1`
the claim requires. -/
theorem register_file_accepts_noncontiguous_indices :
    regIdx5.1 = .ok "/f.bin" ∧
    (alookup regIdx5.2.files ("alice", "/f.bin")).map
      (fun e => e.blocks.map (·.index)) = some [5] := by
  decide

/-- C2 amended: `RegisterFile` auto-creates, for that owner, only the
*immediate* parent directory (`os.path.dirname` of the normalized path)
when it is neither root nor empty and is missing; no other directory
entry is created or changed (deeper ancestors stay absent). -/
theorem register_file_creates_exactly_immediate_parent
    (st : NNState) (now : Int) (u : String) (reg : FileRegistration)
    (habs : alookup st.files (u, normalizeFile reg.filename) = none)
    (hp1 : dirname (normalizeFile reg.filename) ≠ "/")
    (hp2 : dirname (normalizeFile reg.filename) ≠ "") :
    (alookup (register_file st now u reg).2.directories
        (u, dirname (normalizeFile reg.filename))).isSome = true ∧
    ∀ k, k ≠ (u, dirname (normalizeFile reg.filename)) →
      alookup (register_file st now u reg).2.directories k
        = alookup st.directories k := by
  unfold register_file
  simp only [habs, Option.isSome_none, Bool.false_eq_true, if_false]
  split
  · split
    · split
      · exact ⟨by assumption, fun k _ => rfl⟩
      · exact ⟨by assumption, fun k _ => rfl⟩
    · split
      · exact ⟨by rw [alookup_ains_self]; rfl,
          fun k hk => alookup_ains_ne _ _ _ _ hk⟩
      · exact ⟨by rw [alookup_ains_self]; rfl,
          fun k hk => alookup_ains_ne _ _ _ _ hk⟩
  · next h => exact absurd ⟨hp1, hp2⟩ h

/-- C2 amended, witness: registering `/a/b/c.txt` into the empty
namespace creates the immediate parent directory entry. -/
theorem register_file_creates_exactly_immediate_parent_witness :
    (alookup (register_file initState 0 "alice" ⟨"a/b/c.txt", 1, 1, []⟩).2.directories
        ("alice", dirname (normalizeFile "a/b/c.txt"))).isSome = true :=
  (register_file_creates_exactly_immediate_parent initState 0 "alice"
    ⟨"a/b/c.txt", 1, 1, []⟩ (by decide) (by decide) (by decide)).1

/-- C4: if any block of a registration names a DataNode that is not
currently `"active"` per the membership maps (when the path itself is
free), `register_file` fails with `InvalidPlacement` listing exactly the
offending block ids, in block order; and a DataNode that was never
registered is never active. -/
theorem register_file_rejects_inactive_placements
    (st : NNState) (now : Int) (u : String) (reg : FileRegistration)
    (habs : alookup st.files (u, normalizeFile reg.filename) = none)
    (hbad : ∃ b ∈ reg.blocks, b.datanode ∉ activeByStatus st) :
    (register_file st now u reg).1 = .error (.invalidPlacement
      ((reg.blocks.filter (fun b => b.datanode ∉ activeByStatus st)).map
        (·.block_id))) ∧
    ∀ b : BlockInfo, b.datanode ∉ st.datanodes.map (·.1) →
      b.datanode ∉ activeByStatus st := by
  constructor
  · unfold register_file
    simp only [habs, Option.isSome_none, Bool.false_eq_true, if_false]
    have hne : (reg.blocks.filter
        (fun b => decide (b.datanode ∉ activeByStatus st))).map
          (·.block_id) ≠ [] := by
      obtain ⟨b, hb, hnb⟩ := hbad
      intro hnil
      have hmem : b ∈ reg.blocks.filter
          (fun b => decide (b.datanode ∉ activeByStatus st)) :=
        List.mem_filter.mpr ⟨hb, decide_eq_true hnb⟩
      have hmem2 : b.block_id ∈ (reg.blocks.filter
          (fun b => decide (b.datanode ∉ activeByStatus st))).map
            (·.block_id) := List.mem_map_of_mem _ hmem
      rw [hnil] at hmem2
      exact absurd hmem2 (List.not_mem_nil _)
    split
    all_goals try split
    all_goals try split
    all_goals try rfl
    all_goals rename_i h; exact absurd hne h
  · intro b hnotin hmem
    exact hnotin (List.mem_of_mem_filter hmem)

/-- C4 witness: on a NameNode whose only active node is `n1`, a block
placed on the unknown node `nX` makes registration fail with
`InvalidPlacement ["b1"]`. -/
theorem register_file_rejects_inactive_placements_witness :
    (register_file stOneNode 1 "alice"
        ⟨"g", 8, 4, [⟨0, "b0", "n1"⟩, ⟨1, "b1", "nX"⟩]⟩).1 =
      .error (.invalidPlacement
        ((([⟨0, "b0", "n1"⟩, ⟨1, "b1", "nX"⟩] : List BlockInfo).filter
            (fun b => b.datanode ∉ activeByStatus stOneNode)).map
          (·.block_id))) :=
  (register_file_rejects_inactive_placements stOneNode 1 "alice"
    ⟨"g", 8, 4, [⟨0, "b0", "n1"⟩, ⟨1, "b1", "nX"⟩]⟩ (by decide)
    ⟨⟨1, "b1", "nX"⟩, by decide, by decide⟩).1

/-- C5: `rmdir` fails with `NotFound` when the normalized path has no
directory entry for the owner; otherwise it fails with `NotEmpty` exactly
when some entry (file or directory) of the same owner is a strict
path-descendant — its path starts with `path.rstrip("/") + "/"` and
differs from the path — and when neither failure applies the directory
entry is removed and nothing else changes. -/
theorem rmdir_notfound_notempty_remove (st : NNState) (u p : String) :
    (alookup st.directories (u, normalizeFile p) = none →
      rmdir st u p = .error (.notFound (normalizeFile p))) ∧
    ((alookup st.directories (u, normalizeFile p)).isSome = true →
      (rmdir st u p = .error (.notEmpty (normalizeFile p)) ↔
        ∃ kv ∈ st.files.map (·.1) ++ st.directories.map (·.1),
          kv.1 = u ∧
          (rstripSlash (normalizeFile p).data ++ ['/']).isPrefixOf kv.2.data
            = true ∧
          kv.2 ≠ normalizeFile p)) ∧
    ((alookup st.directories (u, normalizeFile p)).isSome = true →
      (¬ ∃ kv ∈ st.files.map (·.1) ++ st.directories.map (·.1),
          kv.1 = u ∧
          (rstripSlash (normalizeFile p).data ++ ['/']).isPrefixOf kv.2.data
            = true ∧
          kv.2 ≠ normalizeFile p) →
      rmdir st u p =
        .ok { st with
              directories := aerase st.directories (u, normalizeFile p) }) := by
  refine ⟨?_, ?_, ?_⟩
  · intro h
    simp only [rmdir, h]
    rfl
  · intro hsome
    obtain ⟨v, hv⟩ := Option.isSome_iff_exists.mp hsome
    simp only [rmdir, hv, Option.isNone_some, Bool.false_eq_true, if_false]
    constructor
    · intro heq
      by_cases hany : (st.files.map (·.1) ++ st.directories.map (·.1)).any
          (fun kv => decide (kv.1 = u ∧
            (rstripSlash (normalizeFile p).data ++ ['/']).isPrefixOf kv.2.data
              = true ∧ kv.2 ≠ normalizeFile p)) = true
      · rw [List.any_eq_true] at hany
        obtain ⟨x, hx, hpx⟩ := hany
        rw [decide_eq_true_eq] at hpx
        exact ⟨x, hx, hpx⟩
      · rw [if_neg hany] at heq
        cases heq
    · intro hex
      rw [if_pos ?_]
      rw [List.any_eq_true]
      obtain ⟨x, hx, hpx⟩ := hex
      exact ⟨x, hx, decide_eq_true hpx⟩
  · intro hsome hnex
    obtain ⟨v, hv⟩ := Option.isSome_iff_exists.mp hsome
    simp only [rmdir, hv, Option.isNone_some, Bool.false_eq_true, if_false]
    rw [if_neg ?_]
    intro hany
    rw [List.any_eq_true] at hany
    obtain ⟨x, hx, hpx⟩ := hany
    rw [decide_eq_true_eq] at hpx
    exact hnex ⟨x, hx, hpx⟩

/-- C5 witness: with `/docs/a.txt` registered, `rmdir /docs` fails with
`NotEmpty`. -/
theorem rmdir_notfound_notempty_remove_witness :
    rmdir stDocsFile "alice" "docs"
      = .error (.notEmpty (normalizeFile "docs")) :=
  ((rmdir_notfound_notempty_remove stDocsFile "alice" "docs").2.1
      (by decide)).mpr
    ⟨("alice", "/docs/a.txt"), by decide, by decide⟩

/-- C8 amended: for every registered file with `T ≥ 1` blocks, when the
probes for exactly `M` of its blocks fail, `check_file_health` reports
`integrity_score = (T - M) / T * 100` and `healthy ↔ M = 0` (for `T = 0`
the computation raises instead — see the zero-block counterexample). -/
theorem check_file_health_score (st : NNState) (probe : BlockInfo → Bool)
    (u f : String) (fi : FileEntry)
    (hfi : alookup st.files (u, normalizeLookup f) = some fi)
    (hT : fi.blocks.length ≠ 0) :
    ∃ rep, check_file_health st probe u f = .ok rep ∧
      rep.total_blocks = fi.blocks.length ∧
      rep.missing_blocks.length
        = (fi.blocks.filter (fun b => ¬ probe b)).length ∧
      rep.integrity_score =
        ((fi.blocks.length : ℚ)
            - (fi.blocks.filter (fun b => ¬ probe b)).length)
          / (fi.blocks.length : ℚ) * 100 ∧
      (rep.healthy = true ↔
        (fi.blocks.filter (fun b => ¬ probe b)).length = 0) := by
  simp only [check_file_health, hfi]
  rw [if_neg hT]
  exact ⟨_, rfl, rfl, rfl, rfl, decide_eq_true_iff⟩

/-- C8 amended, witness: the two-block file `/h` with the probe failing
exactly on `b1` scores `(2 - 1) / 2 * 100 = 50`. -/
theorem check_file_health_score_witness :
    ∃ rep, check_file_health regTwoBlocks.2 (fun b => b.block_id == "b0")
        "alice" "h" = .ok rep ∧ rep.integrity_score = 50 := by
  obtain ⟨rep, h1, -, -, h4, -⟩ :=
    check_file_health_score regTwoBlocks.2 (fun b => b.block_id == "b0")
      "alice" "h" fiTwo (by decide) (by decide)
  refine ⟨rep, h1, ?_⟩
  rw [h4]
  norm_num [fiTwo, List.filter_cons, List.filter_nil]
  rw [if_neg (by decide : ¬ ("b1" : String) = "b0")]
  norm_num

/-- A successful `mkdir` leaves the `files` map untouched. -/
theorem mkdir_ok_files (st : NNState) (now : Int) (u p : String)
    (s : NNState) (h : mkdir st now u p = .ok s) : s.files = st.files := by
  simp only [mkdir] at h
  split at h
  · cases h
  · cases h
    rfl

/-- A successful `rmdir` leaves the `files` map untouched. -/
theorem rmdir_ok_files (st : NNState) (u p : String)
    (s : NNState) (h : rmdir st u p = .ok s) : s.files = st.files := by
  simp only [rmdir] at h
  split at h
  · cases h
  · split at h
    · cases h
    · cases h
      rfl

/-- A successful `rm` deletes exactly the normalized key from `files`. -/
theorem rm_ok_files (st : NNState) (u p : String) (s : NNState) (n : Nat)
    (h : rm st u p = .ok (s, n)) :
    s.files = aerase st.files (u, normalizeFile p) := by
  simp only [rm] at h
  split at h
  · cases h
  · cases h
    rfl

/-- `register_file` either leaves `files` unchanged (any failure) or, when
the key was free, inserts exactly one entry at the normalized key. -/
theorem register_file_files_cases (st : NNState) (now : Int) (u : String)
    (reg : FileRegistration) :
    (register_file st now u reg).2.files = st.files ∨
    (alookup st.files (u, normalizeFile reg.filename) = none ∧
      ∃ v, (register_file st now u reg).2.files =
        ains st.files (u, normalizeFile reg.filename) v) := by
  simp only [register_file]
  split
  · exact Or.inl rfl
  · next habs =>
    have habs' : alookup st.files (u, normalizeFile reg.filename) = none :=
      Option.not_isSome_iff_eq_none.mp habs
    split
    · split
      · split
        · exact Or.inl rfl
        · exact Or.inr ⟨habs', _, rfl⟩
      · split
        · exact Or.inl rfl
        · exact Or.inr ⟨habs', _, rfl⟩
    · split
      · exact Or.inl rfl
      · exact Or.inr ⟨habs', _, rfl⟩

/-- A successful `register_file` stores, at the normalized key, exactly
the registration's data with the block list sorted by index. -/
theorem register_file_ok_stores (st : NNState) (now : Int) (u : String)
    (reg : FileRegistration) (r : String) (st' : NNState)
    (h : register_file st now u reg = (.ok r, st')) :
    alookup st'.files (u, normalizeFile reg.filename) = some
      { size := reg.size, block_size := reg.block_size,
        blocks :=
          List.insertionSort (fun a b => a.index ≤ b.index) reg.blocks,
        created_at := now, owner := u } := by
  simp only [register_file] at h
  split at h
  · rw [Prod.mk.injEq] at h
    cases h.1
  · split at h
    all_goals try split at h
    all_goals try split at h
    all_goals rw [Prod.mk.injEq] at h
    all_goals obtain ⟨h1, h2⟩ := h
    all_goals cases h1
    all_goals subst h2
    all_goals exact alookup_ains_self _ _ _

/-- C9 amended: a successful registration stores the block list sorted by
block index (a permutation of what the client sent — indices are *not*
validated to be contiguous, see the counterexample), and a stored file
entry is immutable: no later namespace operation changes an entry that
remains present. -/
theorem register_file_blocks_sorted_and_immutable :
    (∀ (st : NNState) (now : Int) (u : String) (reg : FileRegistration)
        (r : String) (st' : NNState),
      register_file st now u reg = (.ok r, st') →
      ∃ e : FileEntry,
        alookup st'.files (u, normalizeFile reg.filename) = some e ∧
        e.blocks.Perm reg.blocks ∧
        (e.blocks.map (·.index)).Sorted (· ≤ ·)) ∧
    (∀ (st : NNState) (now : Int) (op : NsOp) (k : String × String)
        (e : FileEntry),
      (st.files.map (·.1)).Nodup →
      alookup st.files k = some e →
      ∀ e', alookup (execNsOp st now op).files k = some e' → e' = e) := by
  constructor
  · intro st now u reg r st' h
    refine ⟨_, register_file_ok_stores st now u reg r st' h, ?_, ?_⟩
    · exact List.perm_insertionSort _ reg.blocks
    · exact List.Pairwise.map _ (fun a b hab => hab)
        (List.sorted_insertionSort _ reg.blocks)
  · intro st now op k e hnd he e' he'
    cases op with
    | mkdirO u p =>
      unfold execNsOp at he'
      cases hm : mkdir st now u p with
      | ok s =>
        simp only [hm] at he'
        rw [mkdir_ok_files st now u p s hm, he] at he'
        exact (Option.some.inj he').symm
      | error err =>
        simp only [hm] at he'
        rw [he] at he'
        exact (Option.some.inj he').symm
    | rmdirO u p =>
      unfold execNsOp at he'
      cases hm : rmdir st u p with
      | ok s =>
        simp only [hm] at he'
        rw [rmdir_ok_files st u p s hm, he] at he'
        exact (Option.some.inj he').symm
      | error err =>
        simp only [hm] at he'
        rw [he] at he'
        exact (Option.some.inj he').symm
    | rmO u p =>
      unfold execNsOp at he'
      cases hm : rm st u p with
      | ok pr =>
        obtain ⟨s, n⟩ := pr
        simp only [hm] at he'
        rw [rm_ok_files st u p s n hm] at he'
        by_cases hk : k = (u, normalizeFile p)
        · subst hk
          rw [alookup_aerase_self st.files _ hnd] at he'
          cases he'
        · have hsome := alookup_aerase_ne st.files _ k e' he' hk
          rw [he] at hsome
          exact (Option.some.inj hsome).symm
      | error err =>
        simp only [hm] at he'
        rw [he] at he'
        exact (Option.some.inj he').symm
    | regO u reg =>
      unfold execNsOp at he'
      rcases register_file_files_cases st now u reg with hsame | ⟨habs, v, hfe⟩
      · rw [hsame, he] at he'
        exact (Option.some.inj he').symm
      · rw [hfe] at he'
        by_cases hk : k = (u, normalizeFile reg.filename)
        · subst hk
          rw [he] at habs
          cases habs
        · rw [alookup_ains_ne _ _ _ _ hk, he] at he'
          exact (Option.some.inj he').symm

/-- C9 amended, witness: the stored entry for `/f.bin` exists, and a later
`mkdir` leaves it unchanged. -/
theorem register_file_blocks_sorted_and_immutable_witness :
    (alookup regIdx5.2.files ("alice", normalizeFile "f.bin")).isSome = true ∧
    fiIdx5 = fiIdx5 := by
  constructor
  · obtain ⟨e, he, -, -⟩ := register_file_blocks_sorted_and_immutable.1
      stOneNode 101 "alice" ⟨"f.bin", 8, 4, [⟨5, "b5", "n1"⟩]⟩ "/f.bin"
      regIdx5.2 (by decide)
    rw [he]
    rfl
  · exact register_file_blocks_sorted_and_immutable.2 regIdx5.2 999
      (.mkdirO "alice" "x") ("alice", "/f.bin") fiIdx5 (by decide) (by decide)
      fiIdx5 (by decide)

/-- Looking up in a value-mapped association list. -/
theorem alookup_map_snd {α β γ : Type} [DecidableEq α] (f : β → γ) :
    ∀ (l : List (α × β)) (k : α),
      alookup (l.map (fun q => (q.1, f q.2))) k = (alookup l k).map f
  | [], _ => rfl
  | (a, b) :: t, k => by
    by_cases h : a = k
    · simp [alookup, h]
    · simp [alookup, h, alookup_map_snd f t k]

/-- On a `datetime` heartbeat the sweep step succeeds and acts as
`sweepOkRecord`. -/
theorem sweepRecord_dt (now t : Int) (s : DataNodeStatus)
    (hs : s.last_heartbeat = .dt t) :
    sweepRecord now s = .ok (sweepOkRecord now s) := by
  by_cases h1 : now - t > HEARTBEAT_TIMEOUT <;>
    by_cases h2 : s.status = "active" <;>
      simp [sweepRecord, sweepOkRecord, pyDtSubGt, hs, h1, h2]

/-- When every tracked record has a `datetime` heartbeat, the sweep
succeeds and maps `sweepOkRecord` over the records. -/
theorem sweepList_allDt (now : Int) :
    ∀ (l : List (String × DataNodeStatus)),
      l.all (fun q => q.2.last_heartbeat.isDt) = true →
      sweepList now l = .ok (l.map (fun q => (q.1, sweepOkRecord now q.2)))
  | [], _ => rfl
  | (dn, s) :: rest, h => by
    simp only [List.all_cons, Bool.and_eq_true] at h
    cases hs : s.last_heartbeat with
    | dt t =>
      simp only [sweepList, sweepRecord_dt now t s hs,
        sweepList_allDt now rest h.2, List.map_cons]
    | fl t =>
      rw [hs] at h
      simp [PyTime.isDt] at h

/-- Whether or not the url was known, `heartbeat` writes the same fresh
active record into `datanode_status`. -/
theorem heartbeat_status (s : NNState) (now : Int) (d : HeartbeatData) :
    (heartbeat s now d).datanode_status =
      ains s.datanode_status d.datanode_url
        { last_heartbeat := .dt now, status := "active",
          total_blocks := d.total_blocks,
          storage_capacity := d.storage_capacity } := by
  unfold heartbeat
  split <;> rfl

/-- A heartbeat from a known url does not change the `datanodes` map. -/
theorem heartbeat_known_datanodes (s : NNState) (now : Int)
    (d : HeartbeatData)
    (h : (alookup s.datanode_status d.datanode_url).isSome = true) :
    (heartbeat s now d).datanodes = s.datanodes := by
  unfold heartbeat
  rw [if_pos h]

/-- `register_datanode` writes a fresh active record into
`datanode_status`. -/
theorem register_datanode_status (s : NNState) (now : Int)
    (rg : DataNodeRegistration) :
    (register_datanode s now rg).datanode_status =
      ains s.datanode_status rg.datanode_url
        { last_heartbeat := .dt now, status := "active",
          total_blocks := 0, storage_capacity := rg.storage_capacity } := by
  unfold register_datanode
  split <;> rfl

/-- C6: a tracked DataNode whose last heartbeat is more than
`HEARTBEAT_TIMEOUT` old transitions `active → inactive` on the next sweep
(no-op when not active), is then excluded from the active-DataNodes view,
and a single later heartbeat makes it active and listed again
immediately; moreover heartbeats and registrations only ever set a status
to `"active"`, so the sweep is the only place liveness degrades. -/
theorem stale_node_swept_heartbeat_restores
    (st : NNState) (now : Int) (u : String) (rec : DataNodeStatus) (t : Int)
    (hAll : AllDt st = true)
    (hrec : alookup st.datanode_status u = some rec)
    (ht : rec.last_heartbeat = .dt t)
    (htimeout : now - t > HEARTBEAT_TIMEOUT)
    (hreg : u ∈ st.datanodes.map (·.1)) :
    (∃ st', check_datanode_status st now = .ok st' ∧
      alookup st'.datanode_status u =
        some (if rec.status = "active"
          then { rec with status := "inactive" } else rec) ∧
      u ∉ get_datanodes st' ∧
      (∀ (now2 : Int) (d : HeartbeatData), d.datanode_url = u →
        alookup (heartbeat st' now2 d).datanode_status u =
          some { last_heartbeat := .dt now2, status := "active",
                 total_blocks := d.total_blocks,
                 storage_capacity := d.storage_capacity } ∧
        u ∈ get_datanodes (heartbeat st' now2 d))) ∧
    (∀ (s : NNState) (n3 : Int) (d : HeartbeatData) (v : String)
        (r r' : DataNodeStatus),
      alookup s.datanode_status v = some r → r.status = "active" →
      alookup (heartbeat s n3 d).datanode_status v = some r' →
      r'.status = "active") ∧
    (∀ (s : NNState) (n3 : Int) (rg : DataNodeRegistration) (v : String)
        (r r' : DataNodeStatus),
      alookup s.datanode_status v = some r → r.status = "active" →
      alookup (register_datanode s n3 rg).datanode_status v = some r' →
      r'.status = "active") := by
  have hswept : sweepOkRecord now rec =
      (if rec.status = "active"
        then { rec with status := "inactive" } else rec) := by
    by_cases hst : rec.status = "active" <;>
      simp [sweepOkRecord, ht, htimeout, hst]
  refine ⟨⟨{ st with datanode_status :=
      st.datanode_status.map (fun q => (q.1, sweepOkRecord now q.2)) },
    ?_, ?_, ?_, ?_⟩, ?_, ?_⟩
  · unfold check_datanode_status
    rw [sweepList_allDt now st.datanode_status hAll]
  · rw [alookup_map_snd, hrec, Option.map_some', hswept]
  · intro hmem
    have hpred := (List.mem_filter.mp hmem).2
    have hlook : alookup (st.datanode_status.map
        (fun q => (q.1, sweepOkRecord now q.2))) u =
          some (sweepOkRecord now rec) := by
      rw [alookup_map_snd, hrec, Option.map_some']
    simp only [hlook, hswept] at hpred
    by_cases hst : rec.status = "active"
    · rw [if_pos hst] at hpred
      simp at hpred
    · rw [if_neg hst] at hpred
      simp at hpred
      exact hst hpred
  · intro now2 d hd
    have hlook : alookup (st.datanode_status.map
        (fun q => (q.1, sweepOkRecord now q.2))) u =
          some (sweepOkRecord now rec) := by
      rw [alookup_map_snd, hrec, Option.map_some']
    constructor
    · rw [heartbeat_status, hd, alookup_ains_self]
    · refine List.mem_filter.mpr ⟨?_, ?_⟩
      · rw [heartbeat_known_datanodes _ _ _ (by rw [hd, hlook]; rfl)]
        exact hreg
      · simp only [heartbeat_status, hd, alookup_ains_self]
        rfl
  · intro s n3 d v r r' hr hact hr'
    rw [heartbeat_status] at hr'
    by_cases hv : v = d.datanode_url
    · subst hv
      rw [alookup_ains_self] at hr'
      cases hr'
      rfl
    · rw [alookup_ains_ne _ _ _ _ hv, hr] at hr'
      cases hr'
      exact hact
  · intro s n3 rg v r r' hr hact hr'
    rw [register_datanode_status] at hr'
    by_cases hv : v = rg.datanode_url
    · subst hv
      rw [alookup_ains_self] at hr'
      cases hr'
      rfl
    · rw [alookup_ains_ne _ _ _ _ hv, hr] at hr'
      cases hr'
      exact hact

/-- C6 witness: the node `n1`, last heartbeat at 0, is inactive after the
sweep at time 100 and listed again after one heartbeat at 101. -/
theorem stale_node_swept_heartbeat_restores_witness :
    "n1" ∉ get_datanodes stSwept ∧
    "n1" ∈ get_datanodes (heartbeat stSwept 101 ⟨"n1", "x", 0, 0⟩) := by
  obtain ⟨⟨st', h1, _, h3, h4⟩, -, -⟩ :=
    stale_node_swept_heartbeat_restores stStaleNode 100 "n1"
      ⟨.dt 0, "active", 0, 0⟩ 0 (by decide) (by decide) rfl (by decide)
      (by decide)
  have hc : check_datanode_status stStaleNode 100 = .ok stSwept := by decide
  rw [h1] at hc
  cases hc
  exact ⟨h3, (h4 101 ⟨"n1", "x", 0, 0⟩ rfl).2⟩

/-- The single-pass collapse keeps the head character. -/
theorem collapse_cons (c : Char) (l : List Char) :
    ∃ l', collapse (c :: l) = c :: l' := by
  match l with
  | [] => exact ⟨[], rfl⟩
  | d :: t =>
    by_cases h : c = '/' ∧ d = '/'
    · obtain ⟨hc, hd⟩ := h
      subst hc
      exact ⟨collapse t, by simp [collapse, hd]⟩
    · exact ⟨collapse (d :: t), by simp [collapse, h]⟩

/-- `noTrip` passes to the tail. -/
theorem noTrip_tail {c : Char} {l : List Char} (h : noTrip (c :: l) = true) :
    noTrip l = true := by
  match l with
  | [] => rfl
  | [d] => rfl
  | d :: e :: t =>
    simp only [noTrip, Bool.and_eq_true] at h
    exact h.2

/-- `noDbl` restricts to a left factor. -/
theorem noDbl_append_left :
    ∀ (l₁ l₂ : List Char), noDbl (l₁ ++ l₂) = true → noDbl l₁ = true
  | [], _, _ => rfl
  | [c], _, _ => rfl
  | c :: d :: t, l₂, h => by
    simp only [List.cons_append, noDbl, Bool.and_eq_true] at h ⊢
    exact ⟨h.1, noDbl_append_left (d :: t) l₂ h.2⟩

/-- `noDbl` restricts to a prefix. -/
theorem noDbl_of_isPrefix {l' l : List Char} (hpre : l' <+: l)
    (h : noDbl l = true) : noDbl l' = true := by
  obtain ⟨t, rfl⟩ := hpre
  exact noDbl_append_left l' t h

/-- One collapse pass over a string with no triple slash removes every
double slash. -/
theorem noTrip_collapse :
    ∀ (l : List Char), noTrip l = true → noDbl (collapse l) = true := by
  intro l
  induction l using collapse.induct with
  | case1 => intro _; rfl
  | case2 c => intro _; rfl
  | case3 c d rest h ih =>
    intro hnt
    obtain ⟨hc, hd⟩ := h
    subst hc
    subst hd
    simp only [collapse, and_self, if_true, reduceIte]
    match rest with
    | [] => rfl
    | e :: t =>
      have h2 : noTrip ('/' :: e :: t) = true := noTrip_tail hnt
      have he : ¬ e = '/' := by
        intro hee
        subst hee
        simp [noTrip] at hnt
      obtain ⟨l'', hl''⟩ := collapse_cons e t
      rw [hl'']
      have hrec : noDbl (collapse (e :: t)) = true :=
        ih (noTrip_tail h2)
      rw [hl''] at hrec
      simp only [noDbl, Bool.and_eq_true]
      exact ⟨by simp [he], hrec⟩
  | case4 c d rest h ih =>
    intro hnt
    simp only [collapse, if_neg h]
    obtain ⟨l'', hl''⟩ := collapse_cons d rest
    rw [hl'']
    have hrec : noDbl (collapse (d :: rest)) = true := ih (noTrip_tail hnt)
    rw [hl''] at hrec
    simp only [noDbl, Bool.and_eq_true]
    refine ⟨?_, hrec⟩
    by_cases hc : c = '/'
    · by_cases hd : d = '/'
      · exact absurd ⟨hc, hd⟩ h
      · simp [hd]
    · simp [hc]

/-- The collapse pass is the identity on strings with no double slash. -/
theorem noDbl_collapse_eq :
    ∀ (l : List Char), noDbl l = true → collapse l = l := by
  intro l
  induction l using collapse.induct with
  | case1 => intro _; rfl
  | case2 c => intro _; rfl
  | case3 c d rest h ih =>
    intro hnd
    obtain ⟨hc, hd⟩ := h
    subst hc
    subst hd
    simp [noDbl] at hnd
  | case4 c d rest h ih =>
    intro hnd
    simp only [noDbl, Bool.and_eq_true] at hnd
    simp only [collapse, if_neg h]
    rw [ih hnd.2]

/-- `dropWhile` is idempotent. -/
theorem dropWhile_dropWhile {α : Type} (p : α → Bool) :
    ∀ (l : List α), (l.dropWhile p).dropWhile p = l.dropWhile p
  | [] => rfl
  | x :: t => by
    by_cases hp : p x = true
    · simp [List.dropWhile_cons, hp, dropWhile_dropWhile p t]
    · simp [List.dropWhile_cons, hp]

/-- Stripping trailing slashes yields a prefix. -/
theorem rstripSlash_isPrefix (l : List Char) : rstripSlash l <+: l := by
  obtain ⟨t, ht⟩ : l.reverse.dropWhile (· = '/') <:+ l.reverse :=
    List.dropWhile_suffix (· = '/')
  refine ⟨t.reverse, ?_⟩
  rw [rstripSlash, ← List.reverse_append, ht, List.reverse_reverse]

/-- Stripping trailing slashes is idempotent. -/
theorem rstripSlash_idem (l : List Char) :
    rstripSlash (rstripSlash l) = rstripSlash l := by
  unfold rstripSlash
  rw [List.reverse_reverse, dropWhile_dropWhile]

/-- Forcing the leading slash cannot create a triple slash. -/
theorem addSlash_noTrip (l : List Char) (h : noTrip l = true) :
    noTrip (addSlash l) = true := by
  match l with
  | [] => rfl
  | c :: t =>
    by_cases hc : c = '/'
    · simpa [addSlash, hc] using h
    · simp only [addSlash, if_neg hc]
      match t with
      | [] => rfl
      | d :: t' =>
        simp only [noTrip, Bool.and_eq_true]
        refine ⟨by simp [hc], h⟩

/-- After forcing the leading slash, the collapse starts with `/`. -/
theorem collapse_addSlash_head (l : List Char) :
    ∃ l', collapse (addSlash l) = '/' :: l' := by
  match l with
  | [] => exact ⟨[], rfl⟩
  | c :: t =>
    by_cases hc : c = '/'
    · subst hc
      have ha : addSlash ('/' :: t) = '/' :: t := by simp [addSlash]
      rw [ha]
      exact collapse_cons '/' t
    · simp only [addSlash, if_neg hc]
      exact collapse_cons '/' (c :: t)

/-- C7 amended: lookup normalization maps `"a/b"`, `"/a/b/"` and
`"/a//b"` to the same canonical `"/a/b"`, and is idempotent on every path
with no three consecutive slashes; it is *not* idempotent in general (see
the `"a///b"` counterexample) because duplicate-slash collapsing is a
single left-to-right `replace` pass. -/
theorem normalizeLookup_idem_on_no_triple_slash (p : String)
    (h : noTrip p.data = true) :
    normalizeLookup (normalizeLookup p) = normalizeLookup p ∧
    normalizeLookup "a/b" = "/a/b" ∧
    normalizeLookup "/a/b/" = "/a/b" ∧
    normalizeLookup "/a//b" = "/a/b" := by
  refine ⟨?_, by decide, by decide, by decide⟩
  unfold normalizeLookup
  congr 1
  have hnd : noDbl (collapse (addSlash p.data)) = true :=
    noTrip_collapse _ (addSlash_noTrip _ h)
  have hndq : noDbl (rstripSlash (collapse (addSlash p.data))) = true :=
    noDbl_of_isPrefix (rstripSlash_isPrefix _) hnd
  have hqq : rstripSlash (rstripSlash (collapse (addSlash p.data)))
      = rstripSlash (collapse (addSlash p.data)) := rstripSlash_idem _
  cases hqe : rstripSlash (collapse (addSlash p.data)) with
  | nil => rfl
  | cons c t =>
    have hc : c = '/' := by
      obtain ⟨l', hl'⟩ := collapse_addSlash_head p.data
      obtain ⟨t2, ht2⟩ := rstripSlash_isPrefix (collapse (addSlash p.data))
      rw [hqe, hl'] at ht2
      exact (List.cons.injEq _ _ _ _ ▸ ht2).1
    have haddq : addSlash (c :: t) = c :: t := by simp [addSlash, hc]
    rw [hqe] at hndq hqq
    show rstripSlash (collapse (addSlash ((String.mk (c :: t)).data)))
      = c :: t
    have hdata : (String.mk (c :: t)).data = c :: t := rfl
    rw [hdata, haddq, noDbl_collapse_eq _ hndq, hqq]

/-- C7 amended, witness: idempotence at `"a/b"`. -/
theorem normalizeLookup_idem_on_no_triple_slash_witness :
    normalizeLookup (normalizeLookup "a/b") = normalizeLookup "a/b" :=
  (normalizeLookup_idem_on_no_triple_slash "a/b" (by decide)).1

end GridDFS
